import Mathlib

/-! Verification of the HtmlAlbum thumbnail and album generator: a shallow
embedding of the two source files `htm_album.py` and
`mk_thumbs.py`.  Pure string/path manipulation (`os.path.basename`,
`os.path.splitext`, `os.path.dirname`, `os.path.join`, `str.endswith`,
`str.removesuffix`) is embedded as functions on `String`/`List Char`,
following the POSIX variants of the `os.path` algorithms.  Python float
arithmetic in `crop_thumb` is embedded exactly over `ℚ` (the concrete
inputs used below are small enough that IEEE double division, which is
correctly rounded, agrees with the exact rational values on every
intermediate result).  Python `int()` is truncation toward zero
(`pyInt`).  Effectful collaborators are passed explicitly:

* the image codec of `crop_thumb` becomes `decode : String → Option (ℕ × ℕ)`
  (decoded width/height, `none` when `Image.open` raises) and
  `saveOk : String → Bool` (whether `Image.save` succeeds);
* the file system seen by `mk_htm_album` becomes a list of
  `(path, contents)` pairs; `os.path.exists` is membership among the paths,
  writing appends a pair; whether the final `open(..., 'wt')` succeeds is
  the explicit flag `write_ok`;
* `os.path.relpath` (which consults the process working directory through
  `abspath`) and `time.strftime` become the explicit parameters `relpath`
  and `timestamp`;
* the unbounded `while os.path.exists(...)` renaming loop is given `fuel`;
  the whole call answers `none` only when the fuel is exhausted.

Log emission (`show_log`) has no bearing on any claim and is dropped.
-/

/-- Index of the last occurrence of `ch` in the list, scanning left to
right while carrying the best index seen so far (`acc`). -/
def lastIdxAux (ch : Char) : List Char → Nat → Option Nat → Option Nat
  | [], _, acc => acc
  | c :: cs, i, acc => lastIdxAux ch cs (i + 1) (if c = ch then some i else acc)

/-- Index of the last occurrence of `ch`, i.e. Python `str.rfind` restricted
to single-character needles (`none` for Python's `-1`). -/
def lastIdx (ch : Char) (l : List Char) : Option Nat := lastIdxAux ch l 0 none

/-- Python `str.endswith(suffix)` (for one string suffix). -/
def strEndsWith (s suffix : String) : Bool :=
  List.isSuffixOf suffix.toList s.toList

/-- Python `str.removesuffix(suffix)`: drop the suffix when present,
otherwise return the string unchanged. -/
def removeSuffix (s suffix : String) : String :=
  if strEndsWith s suffix then
    ⟨s.toList.take (s.toList.length - suffix.toList.length)⟩
  else s

/-- Embedding of `os.path.splitext` (POSIX): split at the last dot of the path, provided
that dot lies after the last separator and the base name does not consist of
leading dots only up to it. -/
def splitext (p : String) : String × String :=
  let cs := p.toList
  match lastIdx '.' cs with
  | none => (p, "")
  | some d =>
    let start := match lastIdx '/' cs with
      | none => 0
      | some s => s + 1
    if start ≤ d ∧ ((cs.drop start).take (d - start)).any (fun c => c ≠ '.') then
      (⟨cs.take d⟩, ⟨cs.drop d⟩)
    else (p, "")

/-- Embedding of `os.path.basename` (POSIX): everything after the last separator. -/
def basename (p : String) : String :=
  match lastIdx '/' p.toList with
  | none => p
  | some i => ⟨p.toList.drop (i + 1)⟩

/-- Embedding of `os.path.dirname` (POSIX): everything up to the last separator, with
trailing separators stripped unless the head is separators only. -/
def dirname (p : String) : String :=
  match lastIdx '/' p.toList with
  | none => ""
  | some i =>
    let head := p.toList.take (i + 1)
    if head.any (fun c => c ≠ '/') then
      ⟨(head.reverse.dropWhile (fun c => c = '/')).reverse⟩
    else ⟨head⟩

/-- Python `str.startswith(prefix)` (for one string prefix). -/
def strStartsWith (s pre : String) : Bool :=
  List.isPrefixOf pre.toList s.toList

/-- Embedding of `os.path.join` (POSIX) for two components. -/
def joinPath (a b : String) : String :=
  if strStartsWith b "/" then b
  else if a = "" ∨ strEndsWith a "/" then a ++ b
  else a ++ "/" ++ b

/-- Python `int()` applied to an exact rational: truncation toward zero. -/
def pyInt (q : ℚ) : ℤ := if q < 0 then -⌊-q⌋ else ⌊q⌋

/-- The 4-tuple `(left, upper, right, lower)` handed to `PIL.Image.crop`,
called `crop_tuple` in the source. -/
structure CropBox where
  left : ℤ
  top : ℤ
  right : ℤ
  bottom : ℤ
deriving DecidableEq, Repr

/-- The crop-geometry computation of `crop_thumb`
(`htm_album.py` lines 228–247): compare the width and height shrink ratios
and crop centrally along the axis with slack, keeping the other axis full. -/
def crop_tuple (img_w img_h : ℕ) (size_w size_h : ℕ) : CropBox :=
  let w_ratio : ℚ := (size_w : ℚ) / (img_w : ℚ)
  let h_ratio : ℚ := (size_h : ℚ) / (img_h : ℚ)
  if w_ratio = h_ratio then
    ⟨0, 0, (img_w : ℤ), (img_h : ℤ)⟩
  else if w_ratio > h_ratio then
    let crop_h : ℚ := (img_w : ℚ) * ((size_h : ℚ) / (size_w : ℚ))
    let crop_l_u := pyInt (((img_h : ℚ) - crop_h) / 2)
    let crop_r_d := pyInt (((img_h : ℚ) - crop_h) / 2 + crop_h)
    ⟨0, crop_l_u, (img_w : ℤ), crop_r_d⟩
  else
    let crop_w : ℚ := (img_h : ℚ) * ((size_w : ℚ) / (size_h : ℚ))
    let crop_l_u := pyInt (((img_w : ℚ) - crop_w) / 2)
    let crop_r_d := pyInt (((img_w : ℚ) - crop_w) / 2 + crop_w)
    ⟨crop_l_u, 0, crop_r_d, (img_h : ℤ)⟩

/-- Embedding of `crop_thumb` (`htm_album.py` lines 199–258).  `decode` models
`Image.open` delivering the decoded dimensions, `saveOk` models whether
`thumb_img.save` succeeds; crop and resize themselves are total on a decoded
image.  The Python function returns `img_path` on any failure and `None`
after a successful save. -/
def crop_thumb (decode : String → Option (ℕ × ℕ)) (saveOk : String → Bool)
    (img_path thumb_path : String) (size : ℕ × ℕ) : Option String :=
  match decode img_path with
  | none => some img_path
  | some (img_w, img_h) =>
    let _box : CropBox := crop_tuple img_w img_h size.1 size.2
    if saveOk thumb_path then none else some img_path

/-- Python truthiness of a `str | None` value: `None` and the empty string
are falsy, every other string is truthy. -/
def truthy : Option String → Bool
  | none => false
  | some s => s != ""

/-- Embedding of `mk_thumbs` (`htm_album.py` lines 261–292): walk the two path lists
index-aligned, run `crop_thumb` on each pair, and accumulate the pairs whose
result is falsy (the claims only concern equal-length inputs; on those this
simultaneous recursion coincides with the `range(len(img_paths))` loop). -/
def mk_thumbs (decode : String → Option (ℕ × ℕ)) (saveOk : String → Bool)
    (thumb_size : ℕ × ℕ) : List String → List String → List String × List String
  | img :: imgs, tp :: tps =>
    let rest := mk_thumbs decode saveOk thumb_size imgs tps
    if truthy (crop_thumb decode saveOk img tp thumb_size) then rest
    else (img :: rest.1, tp :: rest.2)
  | _, _ => ([], [])

/-- Embedding of `mk_thumb_paths` (`htm_album.py` lines 162–196): thumbnail path =
`thumb_dir` joined with (stem of the basename) + `thumb_tail` + `thumb_ext`. -/
def mk_thumb_paths (img_paths : List String) (thumb_dir : String)
    (thumb_ext : String := ".jpg") (thumb_tail : String := "thumb") : List String :=
  img_paths.map (fun img_path =>
    let base := (splitext (basename img_path)).1 ++ thumb_tail
    joinPath thumb_dir (base ++ thumb_ext))

/-- The fixed page header of `mk_htm_album` (`htm_album.py` lines 326–341,
the raw-string literal assigned to `htm_cont`). -/
def htm_head : String :=
  "<html xmlns=\"http://www.w3.org/1999/xhtml\">\n"
  ++ "<head>\n"
  ++ "<title>HTM Title</title>\n"
  ++ "<meta http-equiv=\"content-type\" content=\"text/html; charset=utf-8\"/>\n"
  ++ "<style type=\x27text/css\x27>\n"
  ++ "BODY  \x7bcolor: #d0ffd0; background: #333333;\n"
  ++ "       font-family: sans-serif; font-size: 14pt; margin: 8%\x7d\n"
  ++ "H1    \x7bcolor: #d0ffd0\x7d\n"
  ++ "TABLE \x7btext-align: center; margin-left: auto; margin-right: auto\x7d\n"
  ++ "TD    \x7bcolor: #d0ffd0; padding: 1em\x7d\n"
  ++ "IMG   \x7bborder: 1px solid #d0ffd0\x7d\n"
  ++ "</style>\n"
  ++ "</head>\n"
  ++ "<body>\n"
  ++ "<h1>Album Title</h1><p>\n"

/-- One table cell of the album (`htm_album.py` lines 357–373): the link to
the relative image path wrapping the thumbnail `img` tag (whose `alt` text is
the raw thumbnail path), followed by the basename caption. -/
def album_cell (relpath : String → String → String) (album_dir : String)
    (thumb_size : ℕ × ℕ) (img thumb : String) : String :=
  let rel_img_path := relpath img album_dir
  let rel_thumb_path := relpath thumb album_dir
  "<td align=\x27center\x27>\n"
  ++ "<a href=\"" ++ rel_img_path ++ "\">"
  ++ "<img src=\"" ++ rel_thumb_path ++ "\" "
  ++ "width=\"" ++ toString thumb_size.1 ++ "\" "
  ++ "height=\"" ++ toString thumb_size.2 ++ "\" "
  ++ "alt=\"" ++ thumb ++ "\"/></a>" ++ "\n"
  ++ "<div>" ++ basename rel_img_path ++ "</div>\n"
  ++ "</td>\n"

/-- The table loop of `mk_htm_album` (`htm_album.py` lines 351–376), with
`index` the 0-based Python loop variable and `total_imgs` the record count:
a `<tr>` is emitted when `(index + 1) % album_raw_max == 1` and a `</tr>`
when `(index + 1) % album_raw_max == album_raw_max or index == total_imgs`,
exactly as written in the source. -/
def album_rows (relpath : String → String → String) (album_dir : String)
    (thumb_size : ℕ × ℕ) (album_raw_max total_imgs : ℕ) :
    List String → List String → ℕ → String
  | img :: imgs, tb :: tbs, index =>
    let raw := (index + 1) % album_raw_max
    (if raw = 1 then "<tr>\n" else "")
    ++ album_cell relpath album_dir thumb_size img tb
    ++ (if raw = album_raw_max ∨ index = total_imgs then "</tr>\n" else "")
    ++ album_rows relpath album_dir thumb_size album_raw_max total_imgs imgs tbs (index + 1)
  | _, _, _ => ""

/-- The complete album text `htm_cont` built by `mk_htm_album`
(`htm_album.py` lines 326–378) before the file is written. -/
def htm_cont (relpath : String → String → String) (timestamp : String)
    (imgs thumbs : List String) (thumb_size : ℕ × ℕ)
    (album_path : String) (album_raw_max : ℕ) : String :=
  htm_head
  ++ "<i>No. of images</i>: " ++ toString imgs.length ++ "<br/>\n"
  ++ "<i>Created on</i>:    " ++ timestamp ++ "</p>\n<hr\\>\n"
  ++ "<table>\n"
  ++ album_rows relpath (dirname album_path) thumb_size album_raw_max imgs.length imgs thumbs 0
  ++ "</table>\n</body>\n</html>\n"

/-- The collision-renaming loop of `mk_htm_album` (`htm_album.py` lines
382–401).  `fs` is the file system (written files with their contents);
`album_path` and `root_tail_num` are the loop state, starting from the
requested path and `1`.  While the candidate exists: split off the
extension, strip a trailing `"(num)"` from the root (bumping `num`) when
present, and append `"(num)"` with the updated `num`.  Answers `none` when
`fuel` iterations were not enough (the one-time advisory log is dropped). -/
def resolve_collision (fs : List (String × String)) :
    ℕ → String → ℕ → Option String
  | 0, album_path, _ =>
    if (fs.map Prod.fst).contains album_path then none else some album_path
  | fuel + 1, album_path, root_tail_num =>
    if (fs.map Prod.fst).contains album_path then
      let se := splitext album_path
      let root_tail := "(" ++ toString root_tail_num ++ ")"
      if strEndsWith se.1 root_tail then
        resolve_collision fs fuel
          (removeSuffix se.1 root_tail ++ "(" ++ toString (root_tail_num + 1) ++ ")" ++ se.2)
          (root_tail_num + 1)
      else
        resolve_collision fs fuel
          (se.1 ++ "(" ++ toString root_tail_num ++ ")" ++ se.2)
          root_tail_num
    else some album_path

/-- Embedding of `mk_htm_album` (`htm_album.py` lines 295–411).  Returns `none` only when
`fuel` starves the renaming loop; otherwise `some (ret, fs')` where `ret` is
the Python return value (`some path` for the failure returns at lines 323 and
409, `none` for the success fall-through) and `fs'` the file system after the
call. -/
def mk_htm_album (relpath : String → String → String) (timestamp : String)
    (imgs thumbs : List String) (thumb_size : ℕ × ℕ)
    (album_path : String) (album_raw_max : ℕ) (fuel : ℕ)
    (fs : List (String × String)) (write_ok : Bool) :
    Option (Option String × List (String × String)) :=
  if 1000 < imgs.length then some (some album_path, fs)
  else
    let cont := htm_cont relpath timestamp imgs thumbs thumb_size album_path album_raw_max
    match resolve_collision fs fuel album_path 1 with
    | none => none
    | some written =>
      if write_ok then some (none, fs ++ [(written, cont)])
      else some (some written, fs)

/-- Names of the files on disk after a (fuel-sufficient) `mk_htm_album` call. -/
def fsNames : Option (Option String × List (String × String)) → List String
  | none => []
  | some (_, fs) => fs.map Prod.fst

/-- Contents of the files on disk after a (fuel-sufficient) `mk_htm_album`
call. -/
def fsTexts : Option (Option String × List (String × String)) → List String
  | none => []
  | some (_, fs) => fs.map Prod.snd

/-- The Python return value of a (fuel-sufficient) `mk_htm_album` call. -/
def retVal : Option (Option String × List (String × String)) → Option (Option String)
  | none => none
  | some (r, _) => some r

/-- Number of occurrences of the (non-empty) pattern `pat` among the suffixes
of `l`. -/
def countOcc (pat : List Char) : List Char → ℕ
  | [] => 0
  | c :: rest => (if pat.isPrefixOf (c :: rest) then 1 else 0) + countOcc pat rest

/-- Number of occurrences of the substring `pat` in `s`. -/
def countTag (pat s : String) : ℕ := countOcc pat.toList s.toList

/-- A concrete path-resolution environment for closed runs: when the album
sits in the working directory and the record paths are already relative to
it, `os.path.relpath` returns each path unchanged. -/
def relpathId (p : String) (_start : String) : String := p

/-- A codec environment whose decoder rejects every path (every
`Image.open` raises). -/
def decodeNone : String → Option (ℕ × ℕ) := fun _ => none

/-- A codec environment that decodes every path except `"b"` to a 4×3
image. -/
def decodeB : String → Option (ℕ × ℕ) :=
  fun p => if p = "b" then none else some (4, 3)

/-- A save environment in which every thumbnail write succeeds. -/
def saveAll : String → Bool := fun _ => true

/-- Ten record paths, the layout scenario of the claim about row grouping. -/
def imgs10 : List String :=
  ["p0", "p1", "p2", "p3", "p4", "p5", "p6", "p7", "p8", "p9"]

/-- Three successive `mk_htm_album` calls on the same requested path, with no
records, ample fuel and every write succeeding, starting from file system
`fs` (the collision-naming scenario). -/
def runAlbum (fs : List (String × String)) (p : String) :
    Option (Option String × List (String × String)) :=
  mk_htm_album relpathId "2023-02-21, Tue" [] [] (128, 128) p 4 5 fs true

/-- The file system left behind by a (fuel-sufficient) run, empty on fuel
starvation. -/
def fsAfter : Option (Option String × List (String × String)) → List (String × String)
  | none => []
  | some (_, fs) => fs

/-! Shared lemmas about the embedding, used by several claim theorems. -/

/-- Python truncation agrees with the floor on nonnegative rationals. -/
theorem pyInt_of_nonneg (q : ℚ) (h : 0 ≤ q) : pyInt q = ⌊q⌋ := by
  unfold pyInt
  rw [if_neg (not_lt.mpr h)]

/-- Subadditivity direction of the floor under addition. -/
theorem floor_add_lower (x c : ℚ) : ⌊x⌋ + ⌊c⌋ ≤ ⌊x + c⌋ := by
  apply Int.le_floor.mpr
  push_cast
  have h1 := Int.floor_le x
  have h2 := Int.floor_le c
  linarith

/-- The floor of a sum exceeds the sum of floors by at most one. -/
theorem floor_add_upper (x c : ℚ) : ⌊x + c⌋ ≤ ⌊x⌋ + ⌊c⌋ + 1 := by
  have h1 := Int.lt_floor_add_one x
  have h2 := Int.lt_floor_add_one c
  have h3 : x + c < ((⌊x⌋ + ⌊c⌋ + 2 : ℤ) : ℚ) := by push_cast; linarith
  have h4 := Int.floor_lt.mpr h3
  omega

/-- Equal shrink ratios select the full-image branch of `crop_tuple`. -/
theorem crop_tuple_ratio_eq (img_w img_h size_w size_h : ℕ)
    (heq : (size_w : ℚ) / (img_w : ℚ) = (size_h : ℚ) / (img_h : ℚ)) :
    crop_tuple img_w img_h size_w size_h = ⟨0, 0, (img_w : ℤ), (img_h : ℤ)⟩ := by
  simp only [crop_tuple]
  rw [if_pos heq]

/-- Evaluation of the `w_ratio > h_ratio` branch of `crop_tuple`: full width,
vertically centered crop of exact height `img_w * size_h / size_w`, with both
corners floored from the exact rational values. -/
theorem crop_tuple_tall (img_w img_h size_w size_h : ℕ)
    (hw : 0 < img_w) (hh : 0 < img_h) (hsw : 0 < size_w) (hsh : 0 < size_h)
    (hcond : (size_h : ℚ) / (img_h : ℚ) < (size_w : ℚ) / (img_w : ℚ)) :
    crop_tuple img_w img_h size_w size_h =
      ⟨0, ⌊((img_h : ℚ) - (img_w : ℚ) * ((size_h : ℚ) / (size_w : ℚ))) / 2⌋,
        (img_w : ℤ),
        ⌊((img_h : ℚ) - (img_w : ℚ) * ((size_h : ℚ) / (size_w : ℚ))) / 2
          + (img_w : ℚ) * ((size_h : ℚ) / (size_w : ℚ))⌋⟩ := by
  have hw' : (0:ℚ) < (img_w : ℚ) := by exact_mod_cast hw
  have hh' : (0:ℚ) < (img_h : ℚ) := by exact_mod_cast hh
  have hsw' : (0:ℚ) < (size_w : ℚ) := by exact_mod_cast hsw
  have hsh' : (0:ℚ) < (size_h : ℚ) := by exact_mod_cast hsh
  have hc0 : (0:ℚ) < (img_w : ℚ) * ((size_h : ℚ) / (size_w : ℚ)) := by positivity
  have hm : (size_h : ℚ) * (img_w : ℚ) < (size_w : ℚ) * (img_h : ℚ) :=
    (div_lt_div_iff₀ hh' hw').mp hcond
  have hcb : (img_w : ℚ) * ((size_h : ℚ) / (size_w : ℚ)) < (img_h : ℚ) := by
    rw [← mul_div_assoc, div_lt_iff₀ hsw']
    calc (img_w : ℚ) * (size_h : ℚ) = (size_h : ℚ) * (img_w : ℚ) := mul_comm _ _
      _ < (size_w : ℚ) * (img_h : ℚ) := hm
      _ = (img_h : ℚ) * (size_w : ℚ) := mul_comm _ _
  have hx0 : (0:ℚ) ≤ ((img_h : ℚ) - (img_w : ℚ) * ((size_h : ℚ) / (size_w : ℚ))) / 2 := by
    linarith
  have hxc0 : (0:ℚ) ≤ ((img_h : ℚ) - (img_w : ℚ) * ((size_h : ℚ) / (size_w : ℚ))) / 2
      + (img_w : ℚ) * ((size_h : ℚ) / (size_w : ℚ)) := by linarith
  have hne : (size_w : ℚ) / (img_w : ℚ) ≠ (size_h : ℚ) / (img_h : ℚ) := ne_of_gt hcond
  simp only [crop_tuple]
  rw [if_neg hne, if_pos hcond, pyInt_of_nonneg _ hx0, pyInt_of_nonneg _ hxc0]

/-- Evaluation of the `w_ratio < h_ratio` branch of `crop_tuple`: full height,
horizontally centered crop of exact width `img_h * size_w / size_h`, with both
corners floored from the exact rational values. -/
theorem crop_tuple_wide (img_w img_h size_w size_h : ℕ)
    (hw : 0 < img_w) (hh : 0 < img_h) (hsw : 0 < size_w) (hsh : 0 < size_h)
    (hcond : (size_w : ℚ) / (img_w : ℚ) < (size_h : ℚ) / (img_h : ℚ)) :
    crop_tuple img_w img_h size_w size_h =
      ⟨⌊((img_w : ℚ) - (img_h : ℚ) * ((size_w : ℚ) / (size_h : ℚ))) / 2⌋, 0,
        ⌊((img_w : ℚ) - (img_h : ℚ) * ((size_w : ℚ) / (size_h : ℚ))) / 2
          + (img_h : ℚ) * ((size_w : ℚ) / (size_h : ℚ))⌋,
        (img_h : ℤ)⟩ := by
  have hw' : (0:ℚ) < (img_w : ℚ) := by exact_mod_cast hw
  have hh' : (0:ℚ) < (img_h : ℚ) := by exact_mod_cast hh
  have hsw' : (0:ℚ) < (size_w : ℚ) := by exact_mod_cast hsw
  have hsh' : (0:ℚ) < (size_h : ℚ) := by exact_mod_cast hsh
  have hc0 : (0:ℚ) < (img_h : ℚ) * ((size_w : ℚ) / (size_h : ℚ)) := by positivity
  have hm : (size_w : ℚ) * (img_h : ℚ) < (size_h : ℚ) * (img_w : ℚ) :=
    (div_lt_div_iff₀ hw' hh').mp hcond
  have hcb : (img_h : ℚ) * ((size_w : ℚ) / (size_h : ℚ)) < (img_w : ℚ) := by
    rw [← mul_div_assoc, div_lt_iff₀ hsh']
    calc (img_h : ℚ) * (size_w : ℚ) = (size_w : ℚ) * (img_h : ℚ) := mul_comm _ _
      _ < (size_h : ℚ) * (img_w : ℚ) := hm
      _ = (img_w : ℚ) * (size_h : ℚ) := mul_comm _ _
  have hx0 : (0:ℚ) ≤ ((img_w : ℚ) - (img_h : ℚ) * ((size_w : ℚ) / (size_h : ℚ))) / 2 := by
    linarith
  have hxc0 : (0:ℚ) ≤ ((img_w : ℚ) - (img_h : ℚ) * ((size_w : ℚ) / (size_h : ℚ))) / 2
      + (img_h : ℚ) * ((size_w : ℚ) / (size_h : ℚ)) := by linarith
  have hne : (size_w : ℚ) / (img_w : ℚ) ≠ (size_h : ℚ) / (img_h : ℚ) := ne_of_lt hcond
  have hngt : ¬ ((size_h : ℚ) / (img_h : ℚ) < (size_w : ℚ) / (img_w : ℚ)) := lt_asymm hcond
  simp only [crop_tuple]
  rw [if_neg hne, if_neg hngt, pyInt_of_nonneg _ hx0, pyInt_of_nonneg _ hxc0]

/-- A rounded length within one of the exact cropped length: the difference
of the floors of `x + c` and `x` is `⌊c⌋` or `⌊c⌋ + 1`, hence within one of
`c` itself. -/
theorem floor_pair_near (x c : ℚ) : |c - ((⌊x + c⌋ - ⌊x⌋ : ℤ) : ℚ)| ≤ 1 := by
  have hlo := floor_add_lower x c
  have hhi := floor_add_upper x c
  have hf1 : ((⌊c⌋ : ℤ) : ℚ) ≤ c := Int.floor_le c
  have hf2 : c < ((⌊c⌋ : ℤ) : ℚ) + 1 := Int.lt_floor_add_one c
  have hlo' : ((⌊c⌋ : ℤ) : ℚ) ≤ ((⌊x + c⌋ - ⌊x⌋ : ℤ) : ℚ) := by exact_mod_cast by omega
  have hhi' : ((⌊x + c⌋ - ⌊x⌋ : ℤ) : ℚ) ≤ ((⌊c⌋ : ℤ) : ℚ) + 1 := by
    exact_mod_cast by omega
  rw [abs_le]
  constructor <;> linarith

/-- In the taller-than-target branch the exact crop height is less than the
image height. -/
theorem crop_h_lt_img_h (img_w img_h size_w size_h : ℕ)
    (hw : 0 < img_w) (hh : 0 < img_h) (hsw : 0 < size_w) (hsh : 0 < size_h)
    (hcond : (size_h : ℚ) / (img_h : ℚ) < (size_w : ℚ) / (img_w : ℚ)) :
    (img_w : ℚ) * ((size_h : ℚ) / (size_w : ℚ)) < (img_h : ℚ) := by
  have hw' : (0:ℚ) < (img_w : ℚ) := by exact_mod_cast hw
  have hh' : (0:ℚ) < (img_h : ℚ) := by exact_mod_cast hh
  have hsw' : (0:ℚ) < (size_w : ℚ) := by exact_mod_cast hsw
  have hm : (size_h : ℚ) * (img_w : ℚ) < (size_w : ℚ) * (img_h : ℚ) :=
    (div_lt_div_iff₀ hh' hw').mp hcond
  rw [← mul_div_assoc, div_lt_iff₀ hsw']
  calc (img_w : ℚ) * (size_h : ℚ) = (size_h : ℚ) * (img_w : ℚ) := mul_comm _ _
    _ < (size_w : ℚ) * (img_h : ℚ) := hm
    _ = (img_h : ℚ) * (size_w : ℚ) := mul_comm _ _

/-- In the wider-than-target branch the exact crop width is less than the
image width. -/
theorem crop_w_lt_img_w (img_w img_h size_w size_h : ℕ)
    (hw : 0 < img_w) (hh : 0 < img_h) (hsw : 0 < size_w) (hsh : 0 < size_h)
    (hcond : (size_w : ℚ) / (img_w : ℚ) < (size_h : ℚ) / (img_h : ℚ)) :
    (img_h : ℚ) * ((size_w : ℚ) / (size_h : ℚ)) < (img_w : ℚ) := by
  have hw' : (0:ℚ) < (img_w : ℚ) := by exact_mod_cast hw
  have hh' : (0:ℚ) < (img_h : ℚ) := by exact_mod_cast hh
  have hsh' : (0:ℚ) < (size_h : ℚ) := by exact_mod_cast hsh
  have hm : (size_w : ℚ) * (img_h : ℚ) < (size_h : ℚ) * (img_w : ℚ) :=
    (div_lt_div_iff₀ hw' hh').mp hcond
  rw [← mul_div_assoc, div_lt_iff₀ hsh']
  calc (img_h : ℚ) * (size_w : ℚ) = (size_w : ℚ) * (img_h : ℚ) := mul_comm _ _
    _ < (size_h : ℚ) * (img_w : ℚ) := hm
    _ = (img_w : ℚ) * (size_h : ℚ) := mul_comm _ _

/-- Containment facts for a centered, floored interval of exact length `c`
inside `[0, L]`. -/
theorem centered_facts (L : ℕ) (c : ℚ) (hc0 : 0 < c) (hcL : c < (L : ℚ)) :
    0 ≤ ⌊((L : ℚ) - c) / 2⌋ ∧
    ⌊((L : ℚ) - c) / 2⌋ ≤ ⌊((L : ℚ) - c) / 2 + c⌋ ∧
    ⌊((L : ℚ) - c) / 2 + c⌋ ≤ (L : ℤ) := by
  refine ⟨Int.floor_nonneg.mpr (by linarith), Int.floor_le_floor (by linarith), ?_⟩
  have hle : ((L : ℚ) - c) / 2 + c ≤ (L : ℚ) := by linarith
  calc ⌊((L : ℚ) - c) / 2 + c⌋ ≤ ⌊(L : ℚ)⌋ := Int.floor_le_floor hle
    _ = (L : ℤ) := Int.floor_natCast L

/-- A floored, centered length of exact value `c` with `c * k = N` is within
`k` of `N` after scaling by `k`. -/
theorem scaled_floor_bound (x c : ℚ) (k : ℕ) (hk : 0 < k) (N : ℕ)
    (hrel : c * (k : ℚ) = (N : ℚ)) :
    |(N : ℤ) - (⌊x + c⌋ - ⌊x⌋) * (k : ℤ)| ≤ (k : ℤ) := by
  have hk' : (0:ℚ) < (k : ℚ) := by exact_mod_cast hk
  have h1 : |(N : ℚ) - ((⌊x + c⌋ - ⌊x⌋ : ℤ) : ℚ) * (k : ℚ)| ≤ (k : ℚ) := by
    rw [← hrel, ← sub_mul, abs_mul, abs_of_nonneg (le_of_lt hk')]
    have hnear := floor_pair_near x c
    calc |c - ((⌊x + c⌋ - ⌊x⌋ : ℤ) : ℚ)| * (k : ℚ) ≤ 1 * (k : ℚ) :=
          mul_le_mul_of_nonneg_right hnear (le_of_lt hk')
      _ = (k : ℚ) := one_mul _
  exact_mod_cast h1

/-- C8: whenever the exact aspect ratios of source and target agree
(`size_w * img_h = size_h * img_w`), the quotient comparison
`w_ratio == h_ratio` in `crop_thumb` also succeeds and the crop box is the
full image, so no pixel is discarded. -/
theorem C8_full_image (img_w img_h size_w size_h : ℕ)
    (hw : 0 < img_w) (hh : 0 < img_h) (hsw : 0 < size_w) (hsh : 0 < size_h)
    (hasp : size_w * img_h = size_h * img_w) :
    crop_tuple img_w img_h size_w size_h = ⟨0, 0, (img_w : ℤ), (img_h : ℤ)⟩ := by
  apply crop_tuple_ratio_eq
  rw [div_eq_div_iff (by positivity) (by positivity)]
  exact_mod_cast hasp

/-- Witness for C8 at source 6×4 and target 3×2. -/
theorem C8_full_image_w :
    (0 < 6 ∧ 0 < 4 ∧ 0 < 3 ∧ 0 < 2 ∧ 3 * 4 = 2 * 6) ∧
    crop_tuple 6 4 3 2 = ⟨0, 0, ((6:ℕ) : ℤ), ((4:ℕ) : ℤ)⟩ :=
  ⟨by decide,
    C8_full_image 6 4 3 2 (by decide) (by decide) (by decide) (by decide) (by decide)⟩

/-- C3: for positive source dimensions and target sizes the crop box computed
by `crop_thumb` is contained in `[0, img_w] × [0, img_h]`, and scaling its
width by `size_h` versus its height by `size_w` differ by at most one pixel
worth of the larger target side (the 1-pixel aspect-ratio tolerance). -/
theorem C3_crop_box_bounds (img_w img_h size_w size_h : ℕ)
    (hw : 0 < img_w) (hh : 0 < img_h) (hsw : 0 < size_w) (hsh : 0 < size_h) :
    0 ≤ (crop_tuple img_w img_h size_w size_h).left ∧
    (crop_tuple img_w img_h size_w size_h).left
      ≤ (crop_tuple img_w img_h size_w size_h).right ∧
    (crop_tuple img_w img_h size_w size_h).right ≤ (img_w : ℤ) ∧
    0 ≤ (crop_tuple img_w img_h size_w size_h).top ∧
    (crop_tuple img_w img_h size_w size_h).top
      ≤ (crop_tuple img_w img_h size_w size_h).bottom ∧
    (crop_tuple img_w img_h size_w size_h).bottom ≤ (img_h : ℤ) ∧
    |((crop_tuple img_w img_h size_w size_h).right
        - (crop_tuple img_w img_h size_w size_h).left) * (size_h : ℤ)
      - ((crop_tuple img_w img_h size_w size_h).bottom
        - (crop_tuple img_w img_h size_w size_h).top) * (size_w : ℤ)|
      ≤ ((max size_w size_h : ℕ) : ℤ) := by
  have hw' : (0:ℚ) < (img_w : ℚ) := by exact_mod_cast hw
  have hh' : (0:ℚ) < (img_h : ℚ) := by exact_mod_cast hh
  have hsw' : (0:ℚ) < (size_w : ℚ) := by exact_mod_cast hsw
  have hsh' : (0:ℚ) < (size_h : ℚ) := by exact_mod_cast hsh
  have hmaxw : (size_w : ℤ) ≤ ((max size_w size_h : ℕ) : ℤ) := by
    exact_mod_cast le_max_left size_w size_h
  have hmaxh : (size_h : ℤ) ≤ ((max size_w size_h : ℕ) : ℤ) := by
    exact_mod_cast le_max_right size_w size_h
  rcases lt_trichotomy ((size_w : ℚ) / (img_w : ℚ)) ((size_h : ℚ) / (img_h : ℚ))
    with hlt | heq | hgt
  · -- source relatively wider: full height, horizontally centered
    rw [crop_tuple_wide img_w img_h size_w size_h hw hh hsw hsh hlt]
    have hc0 : (0:ℚ) < (img_h : ℚ) * ((size_w : ℚ) / (size_h : ℚ)) := by positivity
    have hcb := crop_w_lt_img_w img_w img_h size_w size_h hw hh hsw hsh hlt
    obtain ⟨hcf1, hcf2, hcf3⟩ := centered_facts img_w _ hc0 hcb
    have hrel : (img_h : ℚ) * ((size_w : ℚ) / (size_h : ℚ)) * (size_h : ℚ)
        = ((img_h * size_w : ℕ) : ℚ) := by
      push_cast
      field_simp
    have hsb := scaled_floor_bound (((img_w : ℚ)
        - (img_h : ℚ) * ((size_w : ℚ) / (size_h : ℚ))) / 2)
      ((img_h : ℚ) * ((size_w : ℚ) / (size_h : ℚ))) size_h hsh (img_h * size_w) hrel
    have hNc : ((img_h * size_w : ℕ) : ℤ) = (img_h : ℤ) * (size_w : ℤ) := by push_cast; ring
    rw [hNc] at hsb
    refine ⟨hcf1, hcf2, hcf3, le_refl 0, ?_, ?_, ?_⟩
    · simp only [CropBox.bottom]
      exact_mod_cast le_of_lt hh
    · exact le_refl _
    · simp only [CropBox.left, CropBox.right, CropBox.top, CropBox.bottom]
      rw [abs_sub_comm]
      calc |((img_h : ℤ) - 0) * (size_w : ℤ)
            - (⌊((img_w : ℚ) - (img_h : ℚ) * ((size_w : ℚ) / (size_h : ℚ))) / 2
                + (img_h : ℚ) * ((size_w : ℚ) / (size_h : ℚ))⌋
              - ⌊((img_w : ℚ) - (img_h : ℚ) * ((size_w : ℚ) / (size_h : ℚ))) / 2⌋)
              * (size_h : ℤ)|
          = |(img_h : ℤ) * (size_w : ℤ)
            - (⌊((img_w : ℚ) - (img_h : ℚ) * ((size_w : ℚ) / (size_h : ℚ))) / 2
                + (img_h : ℚ) * ((size_w : ℚ) / (size_h : ℚ))⌋
              - ⌊((img_w : ℚ) - (img_h : ℚ) * ((size_w : ℚ) / (size_h : ℚ))) / 2⌋)
              * (size_h : ℤ)| := by rw [sub_zero]
        _ ≤ (size_h : ℤ) := hsb
        _ ≤ ((max size_w size_h : ℕ) : ℤ) := hmaxh
  · -- equal ratios: full image
    rw [crop_tuple_ratio_eq img_w img_h size_w size_h heq]
    have hcross : (size_w : ℚ) * (img_h : ℚ) = (size_h : ℚ) * (img_w : ℚ) :=
      (div_eq_div_iff (ne_of_gt hw') (ne_of_gt hh')).mp heq
    have hzero : ((img_w : ℤ) - 0) * (size_h : ℤ) - ((img_h : ℤ) - 0) * (size_w : ℤ) = 0 := by
      have hcross' : (size_w : ℤ) * (img_h : ℤ) = (size_h : ℤ) * (img_w : ℤ) := by
        exact_mod_cast hcross
      linear_combination -hcross'
    refine ⟨le_refl 0, ?_, le_refl _, le_refl 0, ?_, le_refl _, ?_⟩
    · simp only [CropBox.left, CropBox.right]
      exact_mod_cast Nat.zero_le img_w
    · simp only [CropBox.top, CropBox.bottom]
      exact_mod_cast Nat.zero_le img_h
    · simp only [CropBox.left, CropBox.right, CropBox.top, CropBox.bottom]
      rw [hzero, abs_zero]
      positivity
  · -- source relatively taller: full width, vertically centered
    rw [crop_tuple_tall img_w img_h size_w size_h hw hh hsw hsh hgt]
    have hc0 : (0:ℚ) < (img_w : ℚ) * ((size_h : ℚ) / (size_w : ℚ)) := by positivity
    have hcb := crop_h_lt_img_h img_w img_h size_w size_h hw hh hsw hsh hgt
    obtain ⟨hcf1, hcf2, hcf3⟩ := centered_facts img_h _ hc0 hcb
    have hrel : (img_w : ℚ) * ((size_h : ℚ) / (size_w : ℚ)) * (size_w : ℚ)
        = ((img_w * size_h : ℕ) : ℚ) := by
      push_cast
      field_simp
    have hsb := scaled_floor_bound (((img_h : ℚ)
        - (img_w : ℚ) * ((size_h : ℚ) / (size_w : ℚ))) / 2)
      ((img_w : ℚ) * ((size_h : ℚ) / (size_w : ℚ))) size_w hsw (img_w * size_h) hrel
    have hNc : ((img_w * size_h : ℕ) : ℤ) = (img_w : ℤ) * (size_h : ℤ) := by push_cast; ring
    rw [hNc] at hsb
    refine ⟨le_refl 0, ?_, le_refl _, hcf1, hcf2, hcf3, ?_⟩
    · simp only [CropBox.left, CropBox.right]
      exact_mod_cast Nat.zero_le img_w
    · simp only [CropBox.left, CropBox.right, CropBox.top, CropBox.bottom]
      calc |((img_w : ℤ) - 0) * (size_h : ℤ)
            - (⌊((img_h : ℚ) - (img_w : ℚ) * ((size_h : ℚ) / (size_w : ℚ))) / 2
                + (img_w : ℚ) * ((size_h : ℚ) / (size_w : ℚ))⌋
              - ⌊((img_h : ℚ) - (img_w : ℚ) * ((size_h : ℚ) / (size_w : ℚ))) / 2⌋)
              * (size_w : ℤ)|
          = |(img_w : ℤ) * (size_h : ℤ)
            - (⌊((img_h : ℚ) - (img_w : ℚ) * ((size_h : ℚ) / (size_w : ℚ))) / 2
                + (img_w : ℚ) * ((size_h : ℚ) / (size_w : ℚ))⌋
              - ⌊((img_h : ℚ) - (img_w : ℚ) * ((size_h : ℚ) / (size_w : ℚ))) / 2⌋)
              * (size_w : ℤ)| := by rw [sub_zero]
        _ ≤ (size_w : ℤ) := hsb
        _ ≤ ((max size_w size_h : ℕ) : ℤ) := hmaxw

/-- C2 counterexample: for a 3×3 source and 2×1 target (taller-than-target
branch), the code yields the crop box `(0, 0, 3, 2)`, whose height 2 differs
from the truncation of the exact crop height `crop_h = 3·(1/2)`, which is 1 —
so `bottom - top` is not the truncation of `crop_h` as the claim states. -/
theorem C2_trunc_cex :
    crop_tuple 3 3 2 1 = ⟨0, 0, ((3:ℕ) : ℤ), 2⟩ ∧
    (crop_tuple 3 3 2 1).bottom - (crop_tuple 3 3 2 1).top
      ≠ pyInt (((3:ℕ) : ℚ) * (((1:ℕ) : ℚ) / ((2:ℕ) : ℚ))) := by
  have h := crop_tuple_tall 3 3 2 1 (by norm_num) (by norm_num) (by norm_num)
    (by norm_num) (by norm_num)
  rw [h]
  constructor
  · have h1 : ⌊((((3:ℕ)) : ℚ) - (((3:ℕ)) : ℚ) * ((((1:ℕ)) : ℚ) / (((2:ℕ)) : ℚ))) / 2⌋
        = (0 : ℤ) := by norm_num
    have h2 : ⌊((((3:ℕ)) : ℚ) - (((3:ℕ)) : ℚ) * ((((1:ℕ)) : ℚ) / (((2:ℕ)) : ℚ))) / 2
        + (((3:ℕ)) : ℚ) * ((((1:ℕ)) : ℚ) / (((2:ℕ)) : ℚ))⌋ = (2 : ℤ) := by norm_num
    rw [h1, h2]
  · simp only [CropBox.top, CropBox.bottom]
    rw [pyInt_of_nonneg _ (by norm_num)]
    norm_num

/-- C2 (amended): in the taller-than-target branch the crop spans the full
width; the exact crop height `crop_h = img_w * (size_h / size_w)` is never
itself truncated — instead `top` truncates `(img_h - crop_h)/2` and `bottom`
truncates `(img_h - crop_h)/2 + crop_h`, each from the exact rational value,
so `bottom - top` is `⌊crop_h⌋` or `⌊crop_h⌋ + 1`; symmetrically on the
horizontal axis in the wider-than-target branch. -/
theorem C2_centered_crop (img_w img_h size_w size_h : ℕ)
    (hw : 0 < img_w) (hh : 0 < img_h) (hsw : 0 < size_w) (hsh : 0 < size_h) :
    ((size_h : ℚ) / (img_h : ℚ) < (size_w : ℚ) / (img_w : ℚ) →
      crop_tuple img_w img_h size_w size_h =
        ⟨0, ⌊((img_h : ℚ) - (img_w : ℚ) * ((size_h : ℚ) / (size_w : ℚ))) / 2⌋,
          (img_w : ℤ),
          ⌊((img_h : ℚ) - (img_w : ℚ) * ((size_h : ℚ) / (size_w : ℚ))) / 2
            + (img_w : ℚ) * ((size_h : ℚ) / (size_w : ℚ))⌋⟩ ∧
      ((crop_tuple img_w img_h size_w size_h).bottom
          - (crop_tuple img_w img_h size_w size_h).top
          = ⌊(img_w : ℚ) * ((size_h : ℚ) / (size_w : ℚ))⌋ ∨
        (crop_tuple img_w img_h size_w size_h).bottom
          - (crop_tuple img_w img_h size_w size_h).top
          = ⌊(img_w : ℚ) * ((size_h : ℚ) / (size_w : ℚ))⌋ + 1)) ∧
    ((size_w : ℚ) / (img_w : ℚ) < (size_h : ℚ) / (img_h : ℚ) →
      crop_tuple img_w img_h size_w size_h =
        ⟨⌊((img_w : ℚ) - (img_h : ℚ) * ((size_w : ℚ) / (size_h : ℚ))) / 2⌋, 0,
          ⌊((img_w : ℚ) - (img_h : ℚ) * ((size_w : ℚ) / (size_h : ℚ))) / 2
            + (img_h : ℚ) * ((size_w : ℚ) / (size_h : ℚ))⌋,
          (img_h : ℤ)⟩ ∧
      ((crop_tuple img_w img_h size_w size_h).right
          - (crop_tuple img_w img_h size_w size_h).left
          = ⌊(img_h : ℚ) * ((size_w : ℚ) / (size_h : ℚ))⌋ ∨
        (crop_tuple img_w img_h size_w size_h).right
          - (crop_tuple img_w img_h size_w size_h).left
          = ⌊(img_h : ℚ) * ((size_w : ℚ) / (size_h : ℚ))⌋ + 1)) := by
  constructor
  · intro hcond
    have heval := crop_tuple_tall img_w img_h size_w size_h hw hh hsw hsh hcond
    refine ⟨heval, ?_⟩
    rw [heval]
    simp only [CropBox.top, CropBox.bottom]
    have hlo := floor_add_lower (((img_h : ℚ)
        - (img_w : ℚ) * ((size_h : ℚ) / (size_w : ℚ))) / 2)
      ((img_w : ℚ) * ((size_h : ℚ) / (size_w : ℚ)))
    have hhi := floor_add_upper (((img_h : ℚ)
        - (img_w : ℚ) * ((size_h : ℚ) / (size_w : ℚ))) / 2)
      ((img_w : ℚ) * ((size_h : ℚ) / (size_w : ℚ)))
    omega
  · intro hcond
    have heval := crop_tuple_wide img_w img_h size_w size_h hw hh hsw hsh hcond
    refine ⟨heval, ?_⟩
    rw [heval]
    simp only [CropBox.left, CropBox.right]
    have hlo := floor_add_lower (((img_w : ℚ)
        - (img_h : ℚ) * ((size_w : ℚ) / (size_h : ℚ))) / 2)
      ((img_h : ℚ) * ((size_w : ℚ) / (size_h : ℚ)))
    have hhi := floor_add_upper (((img_w : ℚ)
        - (img_h : ℚ) * ((size_w : ℚ) / (size_h : ℚ))) / 2)
      ((img_h : ℚ) * ((size_w : ℚ) / (size_h : ℚ)))
    omega

/-- Witness for the C2 theorem at a 3×3 source and 2×1 target, whose branch
condition `1/3 < 2/3` holds. -/
theorem C2_centered_crop_w :
    (0 < 3 ∧ 0 < 3 ∧ 0 < 2 ∧ 0 < 1) ∧
    (crop_tuple 3 3 2 1 =
        ⟨0, ⌊(((3:ℕ) : ℚ) - ((3:ℕ) : ℚ) * (((1:ℕ) : ℚ) / ((2:ℕ) : ℚ))) / 2⌋,
          ((3:ℕ) : ℤ),
          ⌊(((3:ℕ) : ℚ) - ((3:ℕ) : ℚ) * (((1:ℕ) : ℚ) / ((2:ℕ) : ℚ))) / 2
            + ((3:ℕ) : ℚ) * (((1:ℕ) : ℚ) / ((2:ℕ) : ℚ))⌋⟩ ∧
      ((crop_tuple 3 3 2 1).bottom - (crop_tuple 3 3 2 1).top
          = ⌊((3:ℕ) : ℚ) * (((1:ℕ) : ℚ) / ((2:ℕ) : ℚ))⌋ ∨
        (crop_tuple 3 3 2 1).bottom - (crop_tuple 3 3 2 1).top
          = ⌊((3:ℕ) : ℚ) * (((1:ℕ) : ℚ) / ((2:ℕ) : ℚ))⌋ + 1)) :=
  ⟨by decide,
    (C2_centered_crop 3 3 2 1 (by decide) (by decide) (by decide) (by decide)).1
      (by norm_num)⟩

/-- Witness for the C3 theorem at a 3×3 source and 2×1 target. -/
theorem C3_crop_box_bounds_w :
    (0 < 3 ∧ 0 < 3 ∧ 0 < 2 ∧ 0 < 1) ∧
    (0 ≤ (crop_tuple 3 3 2 1).left ∧
      (crop_tuple 3 3 2 1).left ≤ (crop_tuple 3 3 2 1).right ∧
      (crop_tuple 3 3 2 1).right ≤ ((3:ℕ) : ℤ) ∧
      0 ≤ (crop_tuple 3 3 2 1).top ∧
      (crop_tuple 3 3 2 1).top ≤ (crop_tuple 3 3 2 1).bottom ∧
      (crop_tuple 3 3 2 1).bottom ≤ ((3:ℕ) : ℤ) ∧
      |((crop_tuple 3 3 2 1).right - (crop_tuple 3 3 2 1).left) * ((1:ℕ) : ℤ)
        - ((crop_tuple 3 3 2 1).bottom - (crop_tuple 3 3 2 1).top) * ((2:ℕ) : ℤ)|
        ≤ ((max 2 1 : ℕ) : ℤ)) :=
  ⟨by decide, C3_crop_box_bounds 3 3 2 1 (by decide) (by decide) (by decide) (by decide)⟩

/-- A `crop_thumb` call either succeeds (returns Python `None`) or returns
the source path itself as the failure token. -/
theorem crop_thumb_none_or_self (decode : String → Option (ℕ × ℕ))
    (saveOk : String → Bool) (img_path thumb_path : String) (size : ℕ × ℕ) :
    crop_thumb decode saveOk img_path thumb_path size = none ∨
    crop_thumb decode saveOk img_path thumb_path size = some img_path := by
  unfold crop_thumb
  cases hd : decode img_path with
  | none => exact Or.inr rfl
  | some wh =>
    obtain ⟨w, h⟩ := wh
    by_cases hs : saveOk thumb_path
    · simp [hs]
    · simp [hs]

/-- C7 counterexample: with the empty string as a source path, a failing
`crop_thumb` run returns `some ""`, which is *falsy* in the Python
truthiness test `if crop_thumb(...)`, so `mk_thumbs` records the pair even
though `crop_thumb` did not succeed (did not return `None`). -/
theorem C7_empty_path_cex :
    mk_thumbs decodeNone saveAll (128, 128) [""] ["t"] = ([""], ["t"]) ∧
    crop_thumb decodeNone saveAll "" "t" (128, 128) = some "" := by
  constructor
  · rfl
  · rfl

/-- C7 (amended): on equal-length inputs whose source paths do not include
the empty string, `mk_thumbs` returns exactly the index-aligned pairs on
which `crop_thumb` succeeded (returned `None`), in input order; a failure at
one index leaves the remaining indices processed. -/
theorem C7_success_filter (decode : String → Option (ℕ × ℕ))
    (saveOk : String → Bool) (thumb_size : ℕ × ℕ) (imgs thumbs : List String)
    (hlen : imgs.length = thumbs.length) (hne : "" ∉ imgs) :
    (mk_thumbs decode saveOk thumb_size imgs thumbs).1
      = ((imgs.zip thumbs).filter
          (fun pr => (crop_thumb decode saveOk pr.1 pr.2 thumb_size).isNone)).map
          Prod.fst ∧
    (mk_thumbs decode saveOk thumb_size imgs thumbs).2
      = ((imgs.zip thumbs).filter
          (fun pr => (crop_thumb decode saveOk pr.1 pr.2 thumb_size).isNone)).map
          Prod.snd := by
  induction imgs generalizing thumbs with
  | nil =>
    cases thumbs with
    | nil => exact ⟨rfl, rfl⟩
    | cons t ts => simp at hlen
  | cons i is ih =>
    cases thumbs with
    | nil => simp at hlen
    | cons t ts =>
      have hlen' : is.length = ts.length := by simpa using hlen
      have hi : i ≠ "" := by
        intro h
        exact hne (by rw [h]; exact List.mem_cons_self _ _)
      have hne' : "" ∉ is := fun h => hne (List.mem_cons_of_mem _ h)
      obtain ⟨ih1, ih2⟩ := ih ts hlen' hne'
      rcases crop_thumb_none_or_self decode saveOk i t thumb_size with hct | hct
      · simp only [mk_thumbs, hct, truthy, List.zip_cons_cons, List.filter_cons,
          Option.isNone_none, if_true]
        constructor
        · simp [ih1]
        · simp [ih2]
      · have htr : truthy (some i) = true := by simp [truthy, hi]
        constructor
        · simp [mk_thumbs, hct, htr, ih1]
        · simp [mk_thumbs, hct, htr, ih2]

/-- Witness for the C7 theorem: three records, the middle one failing to
decode. -/
theorem C7_success_filter_w :
    ((["a", "b", "c"] : List String).length = (["x", "y", "z"] : List String).length ∧
      "" ∉ (["a", "b", "c"] : List String)) ∧
    ((mk_thumbs decodeB saveAll (128, 128) ["a", "b", "c"] ["x", "y", "z"]).1
        = (((["a", "b", "c"] : List String).zip (["x", "y", "z"] : List String)).filter
            (fun pr => (crop_thumb decodeB saveAll pr.1 pr.2 (128, 128)).isNone)).map
            Prod.fst ∧
      (mk_thumbs decodeB saveAll (128, 128) ["a", "b", "c"] ["x", "y", "z"]).2
        = (((["a", "b", "c"] : List String).zip (["x", "y", "z"] : List String)).filter
            (fun pr => (crop_thumb decodeB saveAll pr.1 pr.2 (128, 128)).isNone)).map
            Prod.snd) :=
  ⟨⟨rfl, by decide⟩,
    C7_success_filter decodeB saveAll (128, 128) ["a", "b", "c"] ["x", "y", "z"]
      rfl (by decide)⟩

/-- C6: with more than 1000 records `mk_htm_album` returns the requested
path as the `TooManyImages` failure token before touching the file system:
no collision probing, no write, the file system is returned unchanged. -/
theorem C6_cap_refuses (relpath : String → String → String) (timestamp : String)
    (imgs thumbs : List String) (thumb_size : ℕ × ℕ) (album_path : String)
    (album_raw_max fuel : ℕ) (fs : List (String × String)) (write_ok : Bool)
    (hlen : 1000 < imgs.length) :
    mk_htm_album relpath timestamp imgs thumbs thumb_size album_path
      album_raw_max fuel fs write_ok = some (some album_path, fs) := by
  unfold mk_htm_album
  rw [if_pos hlen]

/-- Witness for C6 with 1001 records. -/
theorem C6_cap_refuses_w :
    1000 < (List.replicate 1001 "a").length ∧
    mk_htm_album relpathId "ts" (List.replicate 1001 "a") (List.replicate 1001 "b")
      (128, 128) "x.htm" 4 1 [] true = some (some "x.htm", []) :=
  ⟨by simp only [List.length_replicate]; decide,
    C6_cap_refuses relpathId "ts" (List.replicate 1001 "a")
      (List.replicate 1001 "b") (128, 128) "x.htm" 4 1 [] true
      (by simp only [List.length_replicate]; decide)⟩

/-- C5 counterexample: a run in which the write succeeds — the album file
`"x.htm"` appears on disk — yet the function returns Python `None`
(`retVal … = some none`), not the path it wrote, contradicting the claim
that on success the actual written path is returned. -/
theorem C5_success_returns_none :
    retVal (mk_htm_album relpathId "ts" [] [] (128, 128) "x.htm" 4 5 [] true)
      = some none ∧
    fsNames (mk_htm_album relpathId "ts" [] [] (128, 128) "x.htm" 4 5 [] true)
      = ["x.htm"] := by
  constructor
  · rfl
  · rfl

/-- C5 (amended): the return convention is the opposite of the claim — when
the record cap is respected and the renaming loop settles on `written`,
a failing final write returns `some written` (the resolved path as failure
token) and leaves the file system unchanged, while a successful write
returns Python `None` and appends the album file; the written path itself
is never returned on success. -/
theorem C5_return_swapped (relpath : String → String → String) (timestamp : String)
    (imgs thumbs : List String) (thumb_size : ℕ × ℕ) (album_path : String)
    (album_raw_max fuel : ℕ) (fs : List (String × String)) (written : String)
    (hlen : imgs.length ≤ 1000)
    (hres : resolve_collision fs fuel album_path 1 = some written) :
    mk_htm_album relpath timestamp imgs thumbs thumb_size album_path
        album_raw_max fuel fs false = some (some written, fs) ∧
    mk_htm_album relpath timestamp imgs thumbs thumb_size album_path
        album_raw_max fuel fs true
      = some (none, fs ++ [(written,
          htm_cont relpath timestamp imgs thumbs thumb_size album_path album_raw_max)]) := by
  have hc : ¬ 1000 < imgs.length := by omega
  unfold mk_htm_album
  rw [hres]
  constructor
  · rw [if_neg hc]
    rfl
  · rw [if_neg hc]
    rfl

/-- Witness for the C5 theorem: no records, empty file system, requested
path free of collisions. -/
theorem C5_return_swapped_w :
    (([] : List String).length ≤ 1000 ∧
      resolve_collision [] 1 "x.htm" 1 = some "x.htm") ∧
    (mk_htm_album relpathId "ts" [] [] (128, 128) "x.htm" 4 1 [] false
        = some (some "x.htm", []) ∧
      mk_htm_album relpathId "ts" [] [] (128, 128) "x.htm" 4 1 [] true
        = some (none, [] ++ [("x.htm",
            htm_cont relpathId "ts" [] [] (128, 128) "x.htm" 4)])) :=
  ⟨⟨by decide, rfl⟩,
    C5_return_swapped relpathId "ts" [] [] (128, 128) "x.htm" 4 1 [] "x.htm"
      (by decide) rfl⟩

/-- C4: three successive calls on the requested path
`photos/htm_album.htm`, starting from an empty directory with every write
succeeding, write exactly the three distinct files with stems ending in no
suffix, `(1)` and `(2)` — never a stacked suffix — and each write targets a
name absent from the file system at the moment of that write. -/
theorem C4_three_runs :
    (fsAfter (runAlbum [] "photos/htm_album.htm")).map Prod.fst
      = ["photos/htm_album.htm"] ∧
    (fsAfter (runAlbum (fsAfter (runAlbum [] "photos/htm_album.htm"))
        "photos/htm_album.htm")).map Prod.fst
      = ["photos/htm_album.htm", "photos/htm_album(1).htm"] ∧
    (fsAfter (runAlbum (fsAfter (runAlbum (fsAfter (runAlbum [] "photos/htm_album.htm"))
        "photos/htm_album.htm")) "photos/htm_album.htm")).map Prod.fst
      = ["photos/htm_album.htm", "photos/htm_album(1).htm", "photos/htm_album(2).htm"] ∧
    ("photos/htm_album.htm" : String) ≠ "photos/htm_album(1).htm" ∧
    ("photos/htm_album.htm" : String) ≠ "photos/htm_album(2).htm" ∧
    ("photos/htm_album(1).htm" : String) ≠ "photos/htm_album(2).htm" ∧
    "photos/htm_album.htm" ∉ (([] : List (String × String)).map Prod.fst) ∧
    "photos/htm_album(1).htm"
      ∉ ((fsAfter (runAlbum [] "photos/htm_album.htm")).map Prod.fst) ∧
    "photos/htm_album(2).htm"
      ∉ ((fsAfter (runAlbum (fsAfter (runAlbum [] "photos/htm_album.htm"))
          "photos/htm_album.htm")).map Prod.fst) := by
  refine ⟨rfl, rfl, rfl, by decide, by decide, by decide, by decide, by decide, by decide⟩

/-- C9 counterexample: a requested path whose stem already ends in `"(2)"`
and collides is renamed to `"a(2)(1).htm"` — the `"(2)"` suffix is *not*
stripped (the loop only strips a suffix matching its own counter, which
starts at 1), so the output name stacks suffixes, contradicting the claim. -/
theorem C9_stacked_cex :
    resolve_collision [("a(2).htm", "x")] 5 "a(2).htm" 1 = some "a(2)(1).htm" ∧
    fsNames (mk_htm_album relpathId "ts" [] [] (128, 128) "a(2).htm" 4 5
        [("a(2).htm", "x")] true)
      = ["a(2).htm", "a(2)(1).htm"] := by
  constructor
  · rfl
  · rfl

/-- C9 (amended): the renaming loop strips a trailing `"(n)"` only when `n`
equals its current counter, which starts at 1 and increments after each
strip.  Hence a colliding request ending in `"(1)"` yields `"(2)"` (and on a
further run `"(3)"`), and successive candidates generated within one call
never stack; but a colliding request ending in `"(n)"` with `n ≥ 2` receives
a stacked `"(n)(1)"` suffix. -/
theorem C9_counter_strip :
    resolve_collision [("a(1).htm", "x")] 5 "a(1).htm" 1 = some "a(2).htm" ∧
    resolve_collision [("a(1).htm", "x"), ("a(2).htm", "y")] 5 "a(1).htm" 1
      = some "a(3).htm" ∧
    resolve_collision [("a.htm", "x"), ("a(1).htm", "y"), ("a(2).htm", "z")] 5
        "a.htm" 1 = some "a(3).htm" ∧
    resolve_collision [("a(2).htm", "x")] 5 "a(2).htm" 1 = some "a(2)(1).htm" := by
  refine ⟨rfl, rfl, rfl, rfl⟩

/-- C10: `mk_thumb_paths` is not injective — two distinct sources differing
only in their extension are mapped to the same thumbnail path, so the later
thumbnail write silently overwrites the earlier one. -/
theorem C10_thumb_path_clash :
    mk_thumb_paths ["d/a.jpg", "d/a.png"] "t" ".jpg" "thumb"
      = ["t/athumb.jpg", "t/athumb.jpg"] ∧
    ("d/a.jpg" : String) ≠ "d/a.png" := by
  constructor
  · rfl
  · decide

set_option maxRecDepth 100000 in
/-- C1 evaluated at the claim's own layout scenario (`columns = 4`, 10
records): the generated album text contains exactly three `<tr>` openers —
before records 1, 5 and 9, as the claim says — but *zero* `</tr>` closers:
the loop's closing condition compares `(index+1) % columns` with `columns`
(impossible for a remainder) and the 0-based `index` with the record count
(impossible inside `range`), so no row, in particular not the final partial
one, is ever closed.  The claim's "the row containing the final record is
closed after the loop" fails on the code. -/
theorem C1_rows_never_closed :
    (fsTexts (mk_htm_album relpathId "2023-02-21, Tue" imgs10 imgs10 (128, 128)
        "x.htm" 4 5 [] true)).map (countTag "<tr>\n") = [3] ∧
    (fsTexts (mk_htm_album relpathId "2023-02-21, Tue" imgs10 imgs10 (128, 128)
        "x.htm" 4 5 [] true)).map (countTag "</tr>\n") = [0] := by
  constructor
  · decide
  · decide
